import Mathlib

/-!
Verification of the Lasthope repository core: the ffmpeg command
construction and execution layer (src/bot/utils/ffmpeg_tools.py and
src/merge.py) and the per-user session handlers (src/main.py).

Modelling conventions: machine reals are modelled as rationals; the
filesystem as a finite set of path strings; subprocess execution as a
function from the command argument list to an outcome (run duration and
exit code) supplied by an environment parameter.  Leading underscores in
Python names are dropped.
-/

/-- Outcome of one child process: how long it runs and its exit code. -/
structure CmdOutcome where
  duration : Nat
  exitCode : Int
  deriving DecidableEq, Repr

/-- The execution environment maps a command argument list to its outcome. -/
abbrev Env := List String → CmdOutcome

/-- Python exceptions raised by the embedded code.  valueError models the
ValueError used for invalid arguments; the two runtime variants model the
RuntimeError raised by the runner on timeout and on non-zero exit;
fileNotFound models FileNotFoundError. -/
inductive Err where
  | valueError (msg : String)
  | runtimeTimeout
  | runtimeCommandFailed (cmd : List String)
  | fileNotFound (p : String)
  deriving DecidableEq, Repr

/-- Which errors are a Python RuntimeError, hence caught by the
fallback handlers in trim_video and replace_audio. -/
def Err.isRuntimeError : Err → Bool
  | .runtimeTimeout => true
  | .runtimeCommandFailed _ => true
  | _ => false

/-- Observable side effects: spawning a child process, forcibly killing it,
and writing a text file with the given lines. -/
inductive Event where
  | spawn (cmd : List String)
  | kill
  | writeFile (name : String) (lines : List String)
  deriving DecidableEq, Repr

/-- The spawned commands appearing in a trace, in order. -/
def runsOf (tr : List Event) : List (List String) :=
  tr.filterMap fun e => match e with
    | .spawn c => some c
    | _ => none

/-- FFMPEG binary name (the FFMPEG_BIN default). -/
def FFMPEG : String := "ffmpeg"

/-- Working directory, used to model pathlib Path.resolve. -/
def CWD : String := "/work"

/-- Embeds Path.resolve: absolutize a path against the working directory. -/
def resolve (p : String) : String :=
  if p.startsWith "/" then p else CWD ++ "/" ++ p

/-- Embeds pathlib Path.stem: final path component minus its last suffix. -/
def stem (p : String) : String :=
  let base := (p.splitOn "/").getLastD p
  let parts := base.splitOn "."
  if parts.length ≤ 1 then base else String.intercalate "." parts.dropLast

/-- Pair a runner result with the output path returned on success. -/
def returning (out : String) (p : List Event × Except Err Unit) :
    List Event × Except Err String :=
  (p.1, p.2.map fun _ => out)

namespace FfmpegTools

/-- The TMP_DIR default of ffmpeg_tools. -/
def TMP_DIR : String := "downloads"

/-- Embeds ffmpeg_tools runner (Python name with a leading underscore).  The source signature has a default
timeout of 600; every call site in the source uses that default, and the
embedded call sites pass 600 explicitly.  If the child runs longer than
the timeout it is killed and the timeout RuntimeError is raised; a
non-zero exit raises the command-failed RuntimeError. -/
def runCmd (env : Env) (cmd : List String) (timeout : Nat) :
    List Event × Except Err Unit :=
  if timeout < (env cmd).duration then
    ([Event.spawn cmd, Event.kill], Except.error Err.runtimeTimeout)
  else if (env cmd).exitCode ≠ 0 then
    ([Event.spawn cmd], Except.error (Err.runtimeCommandFailed cmd))
  else
    ([Event.spawn cmd], Except.ok ())

/-- Embeds the first while loop of change_speed: while remaining > 2.0,
emit an atempo=2.0 stage and halve the remainder.  Returns the emitted
stages and the final remainder. -/
def speedUpStages (r : ℚ) : List ℚ × ℚ :=
  if h : 2 < r then
    ((2 : ℚ) :: (speedUpStages (r / 2)).1, (speedUpStages (r / 2)).2)
  else ([], r)
termination_by (⌈r⌉).toNat
decreasing_by
  all_goals
    have hle : r ≤ ((⌈r⌉ : ℤ) : ℚ) := Int.le_ceil r
    have h1 : r / 2 ≤ ((⌈r⌉ - 1 : ℤ) : ℚ) := by push_cast; linarith
    have h2 : ⌈r / 2⌉ ≤ ⌈r⌉ - 1 := Int.ceil_le.mpr h1
    have h4 : (2 : ℤ) < ⌈r⌉ := by exact_mod_cast lt_of_lt_of_le h hle
    omega

/-- Embeds the second while loop of change_speed: while remaining < 0.5,
emit an atempo=0.5 stage and double the remainder.  The loop body in the
source only runs with a positive remainder (a non-positive factor raised
earlier); the guard records that invariant so the function is total. -/
def speedDownStages (r : ℚ) : List ℚ × ℚ :=
  if h : 0 < r ∧ r < 1 / 2 then
    ((1 : ℚ) / 2 :: (speedDownStages (r * 2)).1, (speedDownStages (r * 2)).2)
  else ([], r)
termination_by (⌈r⁻¹⌉).toNat
decreasing_by
  all_goals
    have hr : 0 < r := h.1
    have h2 : 2 < r⁻¹ := by
      rw [inv_eq_one_div, lt_div_iff₀ hr]; linarith [h.2]
    have he : (r * 2)⁻¹ = r⁻¹ / 2 := by
      rw [mul_inv]; ring
    rw [he]
    have hle : r⁻¹ ≤ ((⌈r⁻¹⌉ : ℤ) : ℚ) := Int.le_ceil _
    have h1 : r⁻¹ / 2 ≤ ((⌈r⁻¹⌉ - 1 : ℤ) : ℚ) := by push_cast; linarith
    have hc : ⌈r⁻¹ / 2⌉ ≤ ⌈r⁻¹⌉ - 1 := Int.ceil_le.mpr h1
    have h4 : (2 : ℤ) < ⌈r⁻¹⌉ := by exact_mod_cast lt_of_lt_of_le h2 hle
    omega

/-- The full atempo stage chain built by change_speed: the stages appended
by the two while loops followed by the final remainder stage. -/
def atempoStages (factor : ℚ) : List ℚ :=
  (speedUpStages factor).1 ++ (speedDownStages (speedUpStages factor).2).1 ++
    [(speedDownStages (speedUpStages factor).2).2]

/-- Embeds change_speed: reject a non-positive factor with ValueError
before doing anything else, otherwise build the filter-complex command
from the setpts expression and the atempo stage chain and run it. -/
def change_speed (env : Env) (input_path output_path : String) (factor : ℚ) :
    List Event × Except Err String :=
  if factor ≤ 0 then
    ([], Except.error (Err.valueError "Speed factor must be > 0"))
  else
    let af := String.intercalate ","
      ((atempoStages factor).map fun s => "atempo=" ++ toString s)
    let vf := "setpts=PTS/" ++ toString factor
    let cmd := [FFMPEG, "-y", "-i", input_path, "-filter_complex",
      "[0:v] " ++ vf ++ " [v]; [0:a] " ++ af ++ " [a]",
      "-map", "[v]", "-map", "[a]", "-c:v", "libx264", "-c:a", "aac",
      output_path]
    ((runCmd env cmd 600).1, (runCmd env cmd 600).2.map fun _ => output_path)

/-- Embeds compress_video: re-encode with libx264 at the given crf. -/
def compress_video (env : Env) (input_path output_path : String)
    (crf : Int) (preset : String) : List Event × Except Err String :=
  returning output_path (runCmd env
    [FFMPEG, "-y", "-i", input_path,
     "-c:v", "libx264", "-preset", preset, "-crf", toString crf,
     "-c:a", "aac", "-b:a", "128k", output_path] 600)

/-- The concat list descriptor path built by merge_videos:
TMP_DIR / concat_(stem of output)_(pid).txt. -/
def concat_list_file (output_path : String) (pid : Nat) : String :=
  TMP_DIR ++ "/concat_" ++ stem output_path ++ "_" ++ toString pid ++ ".txt"

/-- The descriptor body written by the loop in merge_videos: one line per
input path, each of the form file quote(resolved path)quote. -/
def fileListLines (input_paths : List String) : List String :=
  input_paths.foldl (fun acc p => acc ++ ["file \x27" ++ resolve p ++ "\x27"]) []

/-- Embeds ffmpeg_tools merge_videos: write the concat list descriptor,
run the re-encoding concat command, and unconditionally delete the
descriptor afterwards (the finally block; the unlink is modelled as a
plain removal from the filesystem set). -/
def merge_videos (env : Env) (pid : Nat) (fs : Finset String)
    (input_paths : List String) (output_path : String) (crf : Int) :
    Finset String × List Event × Except Err String :=
  let list_file := concat_list_file output_path pid
  let lines := fileListLines input_paths
  let cmd := [FFMPEG, "-y", "-f", "concat", "-safe", "0", "-i", list_file,
    "-c:v", "libx264", "-preset", "fast", "-crf", toString crf,
    "-c:a", "aac", "-b:a", "192k", output_path]
  match runCmd env cmd 600 with
  | (tr, Except.ok _) =>
    ((insert list_file fs).erase list_file,
     Event.writeFile list_file lines :: tr, Except.ok output_path)
  | (tr, Except.error e) =>
    ((insert list_file fs).erase list_file,
     Event.writeFile list_file lines :: tr, Except.error e)

/-- Embeds add_text_watermark: pick the drawtext coordinates from the
position keyword, defaulting to bottom-right, optionally append the
configured font file, and run a single command. -/
def add_text_watermark (env : Env) (input_path output_path : String)
    (text color : String) (fontsize : Int) (position : String)
    (fontfile : Option String) : List Event × Except Err String :=
  let pos := position.toLower
  let xy : String × String :=
    if pos = "center" then ("(w-text_w)/2", "(h-text_h)/2")
    else if pos = "top-left" then ("10", "10")
    else if pos = "top-right" then ("w-text_w-10", "10")
    else if pos = "bottom-left" then ("10", "h-text_h-10")
    else ("w-text_w-10", "h-text_h-10")
  let drawtext := "drawtext=text=\x27" ++ text ++ "\x27:fontcolor=" ++ color ++
    ":fontsize=" ++ toString fontsize ++ ":x=" ++ xy.1 ++ ":y=" ++ xy.2
  let drawtext := match fontfile with
    | some f => drawtext ++ ":fontfile=" ++ f
    | none => drawtext
  returning output_path (runCmd env
    [FFMPEG, "-y", "-i", input_path, "-vf", drawtext, "-c:a", "copy",
     output_path] 600)

/-- Embeds add_moving_watermark: build the animated drawtext expression
for the requested mode (default left-right) and run a single command.
The font file, font size and colour come from configuration. -/
def add_moving_watermark (env : Env) (input_path output_path : String)
    (text mode : String) (fontfile : Option String) (fontsize : Int)
    (color : String) : List Event × Except Err String :=
  let expr :=
    if mode = "top-bottom" then
      "drawtext=text=\x27" ++ text ++ "\x27:fontcolor=" ++ color ++
        ":fontsize=" ++ toString fontsize ++
        ":x=(w-text_w)/2:y=-text_h+mod(t*(h+text_h)/max(1,10),h+text_h)"
    else
      "drawtext=text=\x27" ++ text ++ "\x27:fontcolor=" ++ color ++
        ":fontsize=" ++ toString fontsize ++
        ":x=-text_w+mod(t*(w+text_w)/max(1,10),w+text_w):y=(h-text_h)/2"
  let expr := match fontfile with
    | some f => expr ++ ":fontfile=" ++ f
    | none => expr
  returning output_path (runCmd env
    [FFMPEG, "-y", "-i", input_path, "-vf", expr, "-c:a", "copy",
     output_path] 600)

/-- The stream-copy trim command tried first by trim_video. -/
def trim_copy_cmd (input_path output_path start endTime : String) :
    List String :=
  [FFMPEG, "-y", "-i", input_path, "-ss", start, "-to", endTime,
   "-c", "copy", output_path]

/-- The re-encoding trim command used as the fallback by trim_video. -/
def trim_encode_cmd (input_path output_path start endTime : String) :
    List String :=
  [FFMPEG, "-y", "-i", input_path, "-ss", start, "-to", endTime,
   "-c:v", "libx264", "-c:a", "aac", output_path]

/-- Embeds trim_video: try the stream-copy command; if it raises a
RuntimeError (the only exception the runner raises, covering both the
non-zero-exit and the timeout case), run the re-encoding command once. -/
def trim_video (env : Env) (input_path output_path start endTime : String) :
    List Event × Except Err String :=
  match runCmd env (trim_copy_cmd input_path output_path start endTime) 600 with
  | (t1, Except.ok _) => (t1, Except.ok output_path)
  | (t1, Except.error e) =>
    if e.isRuntimeError then
      let p := runCmd env (trim_encode_cmd input_path output_path start endTime) 600
      (t1 ++ p.1, p.2.map fun _ => output_path)
    else (t1, Except.error e)

/-- Embeds resize_video: scale to the given height keeping aspect ratio. -/
def resize_video (env : Env) (input_path output_path : String)
    (height : Int) : List Event × Except Err String :=
  returning output_path (runCmd env
    [FFMPEG, "-y", "-i", input_path, "-vf", "scale=-2:" ++ toString height,
     "-c:v", "libx264", "-c:a", "aac", output_path] 600)

/-- Embeds extract_audio: strip video, encode audio to mp3. -/
def extract_audio (env : Env) (input_path output_path : String) :
    List Event × Except Err String :=
  returning output_path (runCmd env
    [FFMPEG, "-y", "-i", input_path, "-vn", "-acodec", "mp3",
     "-ab", "192k", output_path] 600)

/-- Embeds extract_thumbnail: one frame at the given offset. -/
def extract_thumbnail (env : Env) (input_path output_path at_time : String) :
    List Event × Except Err String :=
  returning output_path (runCmd env
    [FFMPEG, "-y", "-ss", at_time, "-i", input_path, "-frames:v", "1",
     output_path] 600)

/-- The stream-copy mux command tried first by replace_audio. -/
def replace_copy_cmd (video_path audio_path output_path : String) :
    List String :=
  [FFMPEG, "-y", "-i", video_path, "-i", audio_path, "-c:v", "copy",
   "-map", "0:v:0", "-map", "1:a:0", "-shortest", output_path]

/-- The audio re-encoding mux command used as the fallback. -/
def replace_encode_cmd (video_path audio_path output_path : String) :
    List String :=
  [FFMPEG, "-y", "-i", video_path, "-i", audio_path, "-c:v", "copy",
   "-c:a", "aac", "-map", "0:v:0", "-map", "1:a:0", "-shortest",
   output_path]

/-- Embeds replace_audio: try the stream-copy mux; on a RuntimeError run
the audio re-encoding mux once. -/
def replace_audio (env : Env) (video_path audio_path output_path : String) :
    List Event × Except Err String :=
  match runCmd env (replace_copy_cmd video_path audio_path output_path) 600 with
  | (t1, Except.ok _) => (t1, Except.ok output_path)
  | (t1, Except.error e) =>
    if e.isRuntimeError then
      let p := runCmd env (replace_encode_cmd video_path audio_path output_path) 600
      (t1 ++ p.1, p.2.map fun _ => output_path)
    else (t1, Except.error e)

/-- Embeds rotate_video: reject any angle outside 90, 180, 270 with
ValueError before building a command, otherwise run one transpose
command. -/
def rotate_video (env : Env) (input_path output_path : String)
    (degrees : Int) : List Event × Except Err String :=
  if degrees ∉ ([90, 180, 270] : List Int) then
    ([], Except.error (Err.valueError "Degrees must be 90, 180, or 270"))
  else
    let vf := if degrees = 90 then "transpose=1"
      else if degrees = 270 then "transpose=2"
      else "transpose=1,transpose=1"
    returning output_path (runCmd env
      [FFMPEG, "-y", "-i", input_path, "-vf", vf, "-c:v", "libx264",
       "-c:a", "copy", output_path] 600)

end FfmpegTools

namespace Merge

/-- Embeds the merge.py runner (Python name with a leading underscore):
wait for the child with no time bound, raise only on non-zero exit.
The outcome duration is never consulted: there is no timeout. -/
def runCmd (env : Env) (cmd : List String) : List Event × Except Err Unit :=
  if (env cmd).exitCode ≠ 0 then
    ([Event.spawn cmd], Except.error (Err.runtimeCommandFailed cmd))
  else
    ([Event.spawn cmd], Except.ok ())

/-- Embeds merge.py file-list helper (Python name with a leading
underscore): the lines of the concat descriptor, one per input path,
written in a loop. -/
def ensure_file_list_file (input_paths : List String) : List String :=
  input_paths.foldl (fun acc p => acc ++ ["file \x27" ++ resolve p ++ "\x27"]) []

/-- The descriptor path built by merge.py merge_videos:
downloads/files_(timestamp in ms).txt. -/
def files_list_file (now_ms : Nat) : String :=
  "downloads/files_" ++ toString now_ms ++ ".txt"

/-- Embeds merge.py merge_videos: reject fewer than two inputs with
ValueError, then reject the first missing input with FileNotFoundError,
both before the descriptor is written; otherwise write the descriptor,
run the re-encoding concat command and delete the descriptor in the
finally block whatever the outcome. -/
def merge_videos (env : Env) (now_ms : Nat) (fs : Finset String)
    (input_paths : List String) (output_path : String) (crf : Int) :
    Finset String × List Event × Except Err String :=
  if input_paths = [] ∨ input_paths.length < 2 then
    (fs, [], Except.error (Err.valueError "Need at least two videos to merge."))
  else
    match input_paths.find? (fun p => !(decide (p ∈ fs))) with
    | some p => (fs, [], Except.error (Err.fileNotFound p))
    | none =>
      let list_file := files_list_file now_ms
      let lines := ensure_file_list_file input_paths
      let cmd := [FFMPEG, "-y", "-f", "concat", "-safe", "0", "-i", list_file,
        "-c:v", "libx264", "-preset", "veryfast", "-crf", toString crf,
        "-c:a", "aac", "-b:a", "192k", output_path]
      match runCmd env cmd with
      | (tr, Except.ok _) =>
        ((insert list_file fs).erase list_file,
         Event.writeFile list_file lines :: tr, Except.ok (resolve output_path))
      | (tr, Except.error e) =>
        ((insert list_file fs).erase list_file,
         Event.writeFile list_file lines :: tr, Except.error e)

end Merge

namespace Main

/-- The action strings stored in USER_STATE by cb_handler. -/
inductive Action where
  | compress
  | watermark
  | moving_wm
  | trim
  | resize
  | speed
  | rotate
  | thumb
  | audio_extract
  | audio_replace
  | merge_collect
  deriving DecidableEq, Repr

/-- One USER_STATE entry: the Python dict with keys action, collected
and audio_target.  In the source the latter two keys are present only
when set; here they default to the empty list and none, matching the
defaulted reads (state.get with default) and guarded pops. -/
structure Session where
  action : Action
  collected : List String := []
  audioTarget : Option String := none
  deriving DecidableEq, Repr

/-- USER_STATE: the per-user session dictionary. -/
abbrev Store := Nat → Option Session

/-- The fresh dict assigned by each menu-selection branch of cb_handler:
only the action key (plus the empty collected list for merge_collect,
which is the default here). -/
def initialSession (a : Action) : Session :=
  { action := a }

/-- The callback data string of each menu selection. -/
def actionData : Action → String
  | .compress => "video_compress"
  | .watermark => "video_watermark"
  | .moving_wm => "video_moving_wm"
  | .trim => "video_trim"
  | .resize => "video_resize"
  | .speed => "video_speed"
  | .rotate => "video_rotate"
  | .thumb => "video_thumb"
  | .audio_extract => "audio_extract"
  | .audio_replace => "audio_replace"
  | .merge_collect => "misc_merge"

/-- Embeds the USER_STATE effect of cb_handler: every selection branch
assigns a fresh session dict unconditionally; the menu-navigation and
unknown branches leave USER_STATE untouched. -/
def cb_handler (data : String) (user : Nat) (st : Store) : Store :=
  if data = "video_compress" then
    Function.update st user (some (initialSession Action.compress))
  else if data = "video_watermark" then
    Function.update st user (some (initialSession Action.watermark))
  else if data = "video_moving_wm" then
    Function.update st user (some (initialSession Action.moving_wm))
  else if data = "video_trim" then
    Function.update st user (some (initialSession Action.trim))
  else if data = "video_resize" then
    Function.update st user (some (initialSession Action.resize))
  else if data = "video_speed" then
    Function.update st user (some (initialSession Action.speed))
  else if data = "video_rotate" then
    Function.update st user (some (initialSession Action.rotate))
  else if data = "video_thumb" then
    Function.update st user (some (initialSession Action.thumb))
  else if data = "audio_extract" then
    Function.update st user (some (initialSession Action.audio_extract))
  else if data = "audio_replace" then
    Function.update st user (some (initialSession Action.audio_replace))
  else if data = "misc_merge" then
    Function.update st user
      (some { action := Action.merge_collect, collected := [] })
  else st

/-- Embeds done_merge: reject when no merge-collect session exists or
fewer than 2 files were collected, leaving USER_STATE untouched and
spawning nothing; otherwise run ffmpeg_tools merge_videos on the
collected list and pop the session in the finally block, success or
failure. -/
def done_merge (env : Env) (pid : Nat) (job_dir : String) (fs : Finset String)
    (user : Nat) (st : Store) :
    Store × Finset String × List Event × String :=
  match st user with
  | none => (st, fs, [], "No merge session in progress.")
  | some s =>
    if s.action = Action.merge_collect then
      if s.collected.length < 2 then
        (st, fs, [], "Need at least 2 videos to merge.")
      else
        match FfmpegTools.merge_videos env pid fs s.collected
            (job_dir ++ "/merged.mp4") 22 with
        | (fs2, tr, Except.ok _) =>
          (Function.update st user none, fs2, tr, "Merged video")
        | (fs2, tr, Except.error _) =>
          (Function.update st user none, fs2, tr, "Merge failed")
    else (st, fs, [], "No merge session in progress.")

/-- Embeds the audio_replace branch of send_handler (the two-step
replace-audio flow), given the downloaded input path and the job
directory.  With no stored target the branch stores the input path as
the target and runs nothing; with a stored target it pops the target,
reassigns the session, and runs replace_audio on the stored target and
the new input.  Other actions of send_handler are outside this
definition and are reached only when the session action differs. -/
def send_handler_audio_replace (env : Env) (user : Nat) (st : Store)
    (input_path job_dir : String) : Store × List Event × Except Err String :=
  match st user with
  | none => (st, [], Except.error (Err.valueError "No action selected."))
  | some s =>
    if s.action = Action.audio_replace then
      match s.audioTarget with
      | none =>
        (Function.update st user (some { s with audioTarget := some input_path }),
         [], Except.ok "Target video saved.")
      | some target =>
        let st2 := Function.update st user (some { s with audioTarget := none })
        match FfmpegTools.replace_audio env target input_path
            (job_dir ++ "/replaced_audio.mp4") with
        | (tr, Except.ok out) => (st2, tr, Except.ok out)
        | (tr, Except.error e) => (st2, tr, Except.error e)
    else (st, [], Except.error (Err.valueError "Different action selected."))

end Main

/-- Environment in which every command finishes immediately with exit 0. -/
def env0 : Env := fun _ => { duration := 0, exitCode := 0 }

/-- Environment in which every command runs for 1000000 time units and
then exits 0. -/
def envSlow : Env := fun _ => { duration := 1000000, exitCode := 0 }

/-- Environment in which the stream-copy trim command for the fixed
inputs runs past the timeout and every other command succeeds at once. -/
def envTrimTO : Env := fun c =>
  if c = FfmpegTools.trim_copy_cmd "in.mp4" "out.mp4" "00:00:01" "00:00:05"
  then { duration := 1000, exitCode := 0 }
  else { duration := 0, exitCode := 0 }

/-- Environment in which the stream-copy mux command for the fixed inputs
exits non-zero and every other command succeeds at once. -/
def envReplFail : Env := fun c =>
  if c = FfmpegTools.replace_copy_cmd "v.mp4" "a.mp3" "o.mp4"
  then { duration := 0, exitCode := 1 }
  else { duration := 0, exitCode := 0 }

/-- A store with one merge-collect session holding a single file. -/
def st7 : Main.Store := fun n =>
  if n = 7 then
    some { action := Main.Action.merge_collect, collected := ["f1.mp4"] }
  else none

/-- A store with one merge-collect session holding two files. -/
def st8 : Main.Store := fun n =>
  if n = 8 then
    some { action := Main.Action.merge_collect,
           collected := ["f1.mp4", "f2.mp4"] }
  else none

/-- A store with one audio-replace session with no stored target. -/
def st9 : Main.Store := fun n =>
  if n = 9 then some { action := Main.Action.audio_replace } else none

/-- A store with one audio-replace session with a stored target. -/
def st10 : Main.Store := fun n =>
  if n = 10 then
    some { action := Main.Action.audio_replace, audioTarget := some "tgt.mp4" }
  else none

/-- The runner spawns exactly one child per invocation. -/
theorem runsOf_runCmd (env : Env) (cmd : List String) (t : Nat) :
    runsOf (FfmpegTools.runCmd env cmd t).1 = [cmd] := by
  unfold FfmpegTools.runCmd
  split
  · rfl
  · split <;> rfl

/-- The runner trace always starts with the spawn of its command. -/
theorem runCmd_head (env : Env) (cmd : List String) (t : Nat) :
    (FfmpegTools.runCmd env cmd t).1.head? = some (Event.spawn cmd) := by
  unfold FfmpegTools.runCmd
  split
  · rfl
  · split <;> rfl

/-- Every error the runner raises is a RuntimeError. -/
theorem runCmd_error_isRuntime (env : Env) (cmd : List String) (t : Nat)
    (e : Err) (h : (FfmpegTools.runCmd env cmd t).2 = Except.error e) :
    e.isRuntimeError = true := by
  unfold FfmpegTools.runCmd at h
  split at h
  · cases h; rfl
  · split at h
    · cases h; rfl
    · cases h

/-- A trace decomposes into runs of its parts. -/
theorem runsOf_append (a b : List Event) :
    runsOf (a ++ b) = runsOf a ++ runsOf b :=
  List.filterMap_append a b _

/-- A file write contributes no spawned command. -/
theorem runsOf_cons_writeFile (n : String) (ls : List String)
    (tr : List Event) :
    runsOf (Event.writeFile n ls :: tr) = runsOf tr := by
  simp [runsOf]

/-- Snoc-style folds are maps: the descriptor line loop in list form. -/
theorem foldl_snoc_eq_append_map {α β : Type} (f : α → β) :
    ∀ (l : List α) (acc : List β),
      l.foldl (fun a p => a ++ [f p]) acc = acc ++ l.map f := by
  intro l
  induction l with
  | nil => intro acc; simp
  | cons x xs ih => intro acc; simp [ih]

/-- A list whose head is known keeps it under appending. -/
theorem head?_append_of_head? {l l2 : List Event} {x : Event}
    (h : l.head? = some x) : (l ++ l2).head? = some x := by
  cases l with
  | nil => cases h
  | cons y ys => cases h; rfl

/-- The two while loops of change_speed, first loop: the emitted stages are
all 2, the remainder stays positive and ends at most 2, and the product of
stages times the remainder is the input. -/
theorem speedUpStages_spec (r : ℚ) : 0 < r →
    0 < (FfmpegTools.speedUpStages r).2 ∧ (FfmpegTools.speedUpStages r).2 ≤ 2 ∧
    (FfmpegTools.speedUpStages r).1.prod * (FfmpegTools.speedUpStages r).2 = r ∧
    ∀ s ∈ (FfmpegTools.speedUpStages r).1, s = 2 := by
  induction r using FfmpegTools.speedUpStages.induct with
  | case1 r h ih =>
    intro hr
    have hhalf : 0 < r / 2 := by linarith
    obtain ⟨ih1, ih2, ih3, ih4⟩ := ih hhalf
    rw [FfmpegTools.speedUpStages, dif_pos h]
    refine ⟨ih1, ih2, ?_, ?_⟩
    · simp only [List.prod_cons]
      rw [mul_assoc, ih3]
      ring
    · intro s hs
      rcases List.mem_cons.mp hs with h1 | h1
      · exact h1
      · exact ih4 s h1
  | case2 r h =>
    intro hr
    rw [FfmpegTools.speedUpStages, dif_neg h]
    refine ⟨hr, by linarith [not_lt.mp h], by simp, by simp⟩

/-- The two while loops of change_speed, second loop: on a positive input
at most 2, the emitted stages are all 1/2, the remainder ends in
[1/2, 2], and the product of stages times the remainder is the input. -/
theorem speedDownStages_spec (r : ℚ) : 0 < r → r ≤ 2 →
    1 / 2 ≤ (FfmpegTools.speedDownStages r).2 ∧
    (FfmpegTools.speedDownStages r).2 ≤ 2 ∧
    (FfmpegTools.speedDownStages r).1.prod * (FfmpegTools.speedDownStages r).2 = r ∧
    ∀ s ∈ (FfmpegTools.speedDownStages r).1, s = 1 / 2 := by
  induction r using FfmpegTools.speedDownStages.induct with
  | case1 r h ih =>
    intro hr hle
    have hd1 : 0 < r * 2 := by linarith [h.2]
    have hd2 : r * 2 ≤ 2 := by linarith [h.2]
    obtain ⟨ih1, ih2, ih3, ih4⟩ := ih hd1 hd2
    rw [FfmpegTools.speedDownStages, dif_pos h]
    refine ⟨ih1, ih2, ?_, ?_⟩
    · simp only [List.prod_cons]
      rw [mul_assoc, ih3]
      ring
    · intro s hs
      rcases List.mem_cons.mp hs with h1 | h1
      · exact h1
      · exact ih4 s h1
  | case2 r h =>
    intro hr hle
    rw [FfmpegTools.speedDownStages, dif_neg h]
    have hge : ¬ r < 1 / 2 := fun hc => h ⟨hr, hc⟩
    refine ⟨by linarith [not_lt.mp hge], hle, by simp, by simp⟩

/-- C1: for every speed factor strictly greater than 0, the atempo stage
chain built by change_speed multiplies back to the original factor exactly
(hence within any floating-point tolerance) and every stage lies in the
interval [1/2, 2]. -/
theorem change_speed_stage_chain (factor : ℚ) (h : 0 < factor) :
    (FfmpegTools.atempoStages factor).prod = factor ∧
    ∀ s ∈ FfmpegTools.atempoStages factor, 1 / 2 ≤ s ∧ s ≤ 2 := by
  obtain ⟨u1, u2, u3, u4⟩ := speedUpStages_spec factor h
  obtain ⟨d1, d2, d3, d4⟩ := speedDownStages_spec (FfmpegTools.speedUpStages factor).2 u1 u2
  unfold FfmpegTools.atempoStages
  constructor
  · rw [List.prod_append, List.prod_append, List.prod_singleton, mul_assoc, d3, u3]
  · intro s hs
    rcases List.mem_append.mp hs with h1 | h1
    · rcases List.mem_append.mp h1 with h2 | h2
      · rw [u4 s h2]; norm_num
      · rw [d4 s h2]; norm_num
    · rw [List.mem_singleton.mp h1]
      exact ⟨d1, d2⟩

/-- Witness for C1 at factor 5: the chain multiplies back to 5 and every
stage is in range. -/
theorem change_speed_stage_chain_witness :
    (FfmpegTools.atempoStages 5).prod = 5 ∧
    ∀ s ∈ FfmpegTools.atempoStages 5, 1 / 2 ≤ s ∧ s ≤ 2 :=
  change_speed_stage_chain 5 (by norm_num)

/-- C2: every InvalidArgument condition is rejected before any spawn and
before any descriptor write: a non-positive factor in change_speed, an
angle outside 90, 180, 270 in rotate_video, fewer than two inputs in
merge.py merge_videos, and fewer than two collected files at the bot
merge entry point done_merge (the path through which ffmpeg_tools
merge_videos is invoked).  In each case the event trace is empty and the
state untouched. -/
theorem invalid_argument_rejected_before_spawn (env : Env)
    (i o out jd : String) (factor : ℚ) (d crf : Int) (nowms pid : Nat)
    (fs : Finset String) (inputs : List String) (u : Nat)
    (st : Main.Store) (s : Main.Session) :
    (factor ≤ 0 → FfmpegTools.change_speed env i o factor
        = ([], Except.error (Err.valueError "Speed factor must be > 0"))) ∧
    (d ∉ ([90, 180, 270] : List Int) → FfmpegTools.rotate_video env i o d
        = ([], Except.error (Err.valueError "Degrees must be 90, 180, or 270"))) ∧
    (inputs.length < 2 → Merge.merge_videos env nowms fs inputs out crf
        = (fs, [], Except.error
            (Err.valueError "Need at least two videos to merge."))) ∧
    (st u = some s → s.action = Main.Action.merge_collect →
      s.collected.length < 2 →
      Main.done_merge env pid jd fs u st
        = (st, fs, [], "Need at least 2 videos to merge.")) := by
  refine ⟨?_, ?_, ?_, ?_⟩
  · intro h
    unfold FfmpegTools.change_speed
    rw [if_pos h]
  · intro h
    unfold FfmpegTools.rotate_video
    rw [if_pos h]
  · intro h
    unfold Merge.merge_videos
    rw [if_pos (Or.inr h)]
  · intro hs ha hlen
    unfold Main.done_merge
    rw [hs]
    simp only [ha, if_pos rfl]
    rw [if_pos hlen]
    simp

/-- Witness for C2: factor -1, angle 45, a single-input merge list, and a
merge-collect session with a single collected file are all rejected with
an empty trace. -/
theorem invalid_argument_rejected_before_spawn_witness :
    FfmpegTools.change_speed env0 "a.mp4" "b.mp4" (-1)
      = ([], Except.error (Err.valueError "Speed factor must be > 0")) ∧
    FfmpegTools.rotate_video env0 "a.mp4" "b.mp4" 45
      = ([], Except.error (Err.valueError "Degrees must be 90, 180, or 270")) ∧
    Merge.merge_videos env0 3 ∅ ["a.mp4"] "out.mp4" 23
      = (∅, [], Except.error
          (Err.valueError "Need at least two videos to merge.")) ∧
    Main.done_merge env0 3 "jd" ∅ 7 st7
      = (st7, ∅, [], "Need at least 2 videos to merge.") := by
  have h := invalid_argument_rejected_before_spawn env0 "a.mp4" "b.mp4"
    "out.mp4" "jd" (-1) 45 23 3 3 ∅ ["a.mp4"] 7 st7
    { action := Main.Action.merge_collect, collected := ["f1.mp4"] }
  exact ⟨h.1 (by norm_num), h.2.1 (by decide), h.2.2.1 (by decide),
    h.2.2.2 rfl rfl (by decide)⟩

/-- C3 counterexample: the merge.py runner invoked on a command whose
duration far exceeds the 600-unit default timeout neither kills the child
nor reports a Timeout failure; it waits the whole duration and returns
success.  The merge.py runner enforces no timeout at all. -/
theorem merge_runCmd_no_timeout_counterexample :
    600 < (envSlow ["ffmpeg"]).duration ∧
    Merge.runCmd envSlow ["ffmpeg"]
      = ([Event.spawn ["ffmpeg"]], Except.ok ()) := by
  exact ⟨by decide, rfl⟩

/-- C3 amended: the ffmpeg_tools runner enforces the 600-unit timeout
used by every call site, kills the child on expiry and reports the
timeout failure, never the command-failed one; the merge.py runner
enforces no timeout: its result depends only on the exit code, whatever
the duration. -/
theorem runner_timeout_policy (env : Env) (cmd : List String) :
    (600 < (env cmd).duration →
      FfmpegTools.runCmd env cmd 600
        = ([Event.spawn cmd, Event.kill], Except.error Err.runtimeTimeout)) ∧
    ((env cmd).exitCode = 0 →
      Merge.runCmd env cmd = ([Event.spawn cmd], Except.ok ())) ∧
    ((env cmd).exitCode ≠ 0 →
      Merge.runCmd env cmd
        = ([Event.spawn cmd],
           Except.error (Err.runtimeCommandFailed cmd))) := by
  refine ⟨?_, ?_, ?_⟩
  · intro h
    unfold FfmpegTools.runCmd
    rw [if_pos h]
  · intro h
    unfold Merge.runCmd
    rw [if_neg (by simp [h])]
  · intro h
    unfold Merge.runCmd
    rw [if_pos h]

/-- Witness for the amended C3 on a command that runs for 1000000 units
and exits 0: the ffmpeg_tools runner kills it and reports Timeout, the
merge.py runner reports success. -/
theorem runner_timeout_policy_witness :
    FfmpegTools.runCmd envSlow ["ff"] 600
      = ([Event.spawn ["ff"], Event.kill], Except.error Err.runtimeTimeout) ∧
    Merge.runCmd envSlow ["ff"] = ([Event.spawn ["ff"]], Except.ok ()) :=
  ⟨(runner_timeout_policy envSlow ["ff"]).1 (by decide),
   (runner_timeout_policy envSlow ["ff"]).2.1 (by decide)⟩

/-- The trace of a known runner invocation spawns exactly its command. -/
theorem runsOf_of_runCmd_eq {env : Env} {cmd : List String} {t : Nat}
    {tr : List Event} {r : Except Err Unit}
    (h : FfmpegTools.runCmd env cmd t = (tr, r)) : runsOf tr = [cmd] := by
  have h2 := runsOf_runCmd env cmd t
  rw [h] at h2
  exact h2

/-- The merge.py runner spawns exactly one child per invocation. -/
theorem runsOf_mergeRunCmd (env : Env) (cmd : List String) :
    runsOf (Merge.runCmd env cmd).1 = [cmd] := by
  unfold Merge.runCmd
  split <;> rfl

/-- The trace of a known merge.py runner invocation spawns exactly its
command. -/
theorem runsOf_of_mergeRunCmd_eq {env : Env} {cmd : List String}
    {tr : List Event} {r : Except Err Unit}
    (h : Merge.runCmd env cmd = (tr, r)) : runsOf tr = [cmd] := by
  have h2 := runsOf_mergeRunCmd env cmd
  rw [h] at h2
  exact h2

/-- C4 counterexample: under an environment where the stream-copy trim
command exceeds the timeout, the first runner invocation reports a
Timeout failure, not CommandFailed, and yet trim_video still runs the
re-encode fallback: the trace spawns both commands.  A Timeout therefore
also triggers the automatic fallback, because the source catches the one
RuntimeError type that covers both failures. -/
theorem trim_fallback_on_timeout_counterexample :
    (FfmpegTools.runCmd envTrimTO
        (FfmpegTools.trim_copy_cmd "in.mp4" "out.mp4" "00:00:01" "00:00:05")
        600).2
      = Except.error Err.runtimeTimeout ∧
    runsOf (FfmpegTools.trim_video envTrimTO
        "in.mp4" "out.mp4" "00:00:01" "00:00:05").1
      = [FfmpegTools.trim_copy_cmd "in.mp4" "out.mp4" "00:00:01" "00:00:05",
         FfmpegTools.trim_encode_cmd "in.mp4" "out.mp4" "00:00:01" "00:00:05"] := by
  constructor <;> rfl

/-- C4 amended: the runner itself never retries (each invocation spawns
exactly one child); trim_video and replace_audio run a single distinct
re-encode fallback command exactly once whenever the first command raises
any RuntimeError (so on CommandFailed and also, unlike the claim, on
Timeout), and never otherwise; every other operation spawns at most one
command, surfacing failure without retry. -/
theorem fallback_policy (env : Env)
    (i o v a out start endTime : String)
    (text color mode position at_time preset : String)
    (fontfile : Option String) (fontsize height crf degrees : Int)
    (factor : ℚ) (pid nowms : Nat) (fs : Finset String)
    (inputs : List String) :
    (∀ cmd t, runsOf (FfmpegTools.runCmd env cmd t).1 = [cmd]) ∧
    ((FfmpegTools.runCmd env
        (FfmpegTools.trim_copy_cmd i o start endTime) 600).2 = Except.ok () →
      runsOf (FfmpegTools.trim_video env i o start endTime).1
        = [FfmpegTools.trim_copy_cmd i o start endTime]) ∧
    (∀ er, (FfmpegTools.runCmd env
        (FfmpegTools.trim_copy_cmd i o start endTime) 600).2
          = Except.error er →
      runsOf (FfmpegTools.trim_video env i o start endTime).1
        = [FfmpegTools.trim_copy_cmd i o start endTime,
           FfmpegTools.trim_encode_cmd i o start endTime]) ∧
    FfmpegTools.trim_copy_cmd i o start endTime
      ≠ FfmpegTools.trim_encode_cmd i o start endTime ∧
    ((FfmpegTools.runCmd env
        (FfmpegTools.replace_copy_cmd v a o) 600).2 = Except.ok () →
      runsOf (FfmpegTools.replace_audio env v a o).1
        = [FfmpegTools.replace_copy_cmd v a o]) ∧
    (∀ er, (FfmpegTools.runCmd env
        (FfmpegTools.replace_copy_cmd v a o) 600).2 = Except.error er →
      runsOf (FfmpegTools.replace_audio env v a o).1
        = [FfmpegTools.replace_copy_cmd v a o,
           FfmpegTools.replace_encode_cmd v a o]) ∧
    FfmpegTools.replace_copy_cmd v a o
      ≠ FfmpegTools.replace_encode_cmd v a o ∧
    (runsOf (FfmpegTools.compress_video env i o crf preset).1).length ≤ 1 ∧
    (runsOf (FfmpegTools.add_text_watermark env i o text color fontsize
        position fontfile).1).length ≤ 1 ∧
    (runsOf (FfmpegTools.add_moving_watermark env i o text mode fontfile
        fontsize color).1).length ≤ 1 ∧
    (runsOf (FfmpegTools.resize_video env i o height).1).length ≤ 1 ∧
    (runsOf (FfmpegTools.extract_audio env i o).1).length ≤ 1 ∧
    (runsOf (FfmpegTools.extract_thumbnail env i o at_time).1).length ≤ 1 ∧
    (runsOf (FfmpegTools.change_speed env i o factor).1).length ≤ 1 ∧
    (runsOf (FfmpegTools.rotate_video env i o degrees).1).length ≤ 1 ∧
    (runsOf (FfmpegTools.merge_videos env pid fs inputs out crf).2.1).length
      ≤ 1 ∧
    (runsOf (Merge.merge_videos env nowms fs inputs out crf).2.1).length
      ≤ 1 := by
  refine ⟨runsOf_runCmd env, ?_, ?_, ?_, ?_, ?_, ?_, ?_, ?_, ?_, ?_, ?_,
    ?_, ?_, ?_, ?_, ?_⟩
  · intro h
    unfold FfmpegTools.trim_video
    rcases hm : FfmpegTools.runCmd env
      (FfmpegTools.trim_copy_cmd i o start endTime) 600 with ⟨t1, r1⟩
    rw [hm] at h
    simp only at h
    rw [h]
    simpa using runsOf_of_runCmd_eq hm
  · intro er h
    unfold FfmpegTools.trim_video
    rcases hm : FfmpegTools.runCmd env
      (FfmpegTools.trim_copy_cmd i o start endTime) 600 with ⟨t1, r1⟩
    rw [hm] at h
    simp only at h
    rw [h]
    have hrt : er.isRuntimeError = true :=
      runCmd_error_isRuntime env _ 600 er (by rw [hm]; exact h)
    simp [hrt, runsOf_append, runsOf_of_runCmd_eq hm, runsOf_runCmd]
  · intro hcontra
    have hl := congrArg List.length hcontra
    simp [FfmpegTools.trim_copy_cmd, FfmpegTools.trim_encode_cmd] at hl
  · intro h
    unfold FfmpegTools.replace_audio
    rcases hm : FfmpegTools.runCmd env
      (FfmpegTools.replace_copy_cmd v a o) 600 with ⟨t1, r1⟩
    rw [hm] at h
    simp only at h
    rw [h]
    simpa using runsOf_of_runCmd_eq hm
  · intro er h
    unfold FfmpegTools.replace_audio
    rcases hm : FfmpegTools.runCmd env
      (FfmpegTools.replace_copy_cmd v a o) 600 with ⟨t1, r1⟩
    rw [hm] at h
    simp only at h
    rw [h]
    have hrt : er.isRuntimeError = true :=
      runCmd_error_isRuntime env _ 600 er (by rw [hm]; exact h)
    simp [hrt, runsOf_append, runsOf_of_runCmd_eq hm, runsOf_runCmd]
  · intro hcontra
    have hl := congrArg List.length hcontra
    simp [FfmpegTools.replace_copy_cmd, FfmpegTools.replace_encode_cmd] at hl
  · simp [FfmpegTools.compress_video, returning, runsOf_runCmd]
  · unfold FfmpegTools.add_text_watermark
    cases fontfile <;> simp [returning, runsOf_runCmd]
  · unfold FfmpegTools.add_moving_watermark
    cases fontfile <;> simp [returning, runsOf_runCmd]
  · simp [FfmpegTools.resize_video, returning, runsOf_runCmd]
  · simp [FfmpegTools.extract_audio, returning, runsOf_runCmd]
  · simp [FfmpegTools.extract_thumbnail, returning, runsOf_runCmd]
  · unfold FfmpegTools.change_speed
    split
    · simp [runsOf]
    · simp [runsOf_runCmd]
  · unfold FfmpegTools.rotate_video
    split
    · simp [runsOf]
    · simp [returning, runsOf_runCmd]
  · simp only [FfmpegTools.merge_videos]
    split <;> rename_i tr x heq <;>
      simp [runsOf_cons_writeFile, runsOf_of_runCmd_eq heq]
  · simp only [Merge.merge_videos]
    split
    · simp [runsOf]
    · split
      · simp [runsOf]
      · split <;> rename_i tr x heq <;>
          simp [runsOf_cons_writeFile, runsOf_of_mergeRunCmd_eq heq]

/-- Witness for the amended C4: with every command succeeding, trim runs
only the stream-copy command; with the stream-copy mux failing,
replace_audio runs it and then the distinct re-encode mux. -/
theorem fallback_policy_witness :
    runsOf (FfmpegTools.trim_video env0 "i.mp4" "o.mp4" "1" "2").1
      = [FfmpegTools.trim_copy_cmd "i.mp4" "o.mp4" "1" "2"] ∧
    runsOf (FfmpegTools.replace_audio envReplFail "v.mp4" "a.mp3" "o.mp4").1
      = [FfmpegTools.replace_copy_cmd "v.mp4" "a.mp3" "o.mp4",
         FfmpegTools.replace_encode_cmd "v.mp4" "a.mp3" "o.mp4"] :=
  ⟨(fallback_policy env0 "i.mp4" "o.mp4" "v.mp4" "a.mp3" "out" "1" "2"
      "t" "white" "left-right" "center" "00:00:03" "fast" none 36 720 23 90
      2 1 1 ∅ []).2.1 rfl,
   (fallback_policy envReplFail "i.mp4" "o.mp4" "v.mp4" "a.mp3" "out"
      "1" "2" "t" "white" "left-right" "center" "00:00:03" "fast" none 36
      720 23 90 2 1 1 ∅ []).2.2.2.2.2.1
      (Err.runtimeCommandFailed (FfmpegTools.replace_copy_cmd "v.mp4"
        "a.mp3" "o.mp4")) rfl⟩

/-- The descriptor line loop of ffmpeg_tools merge_videos written as a
map: one line per input, in input order, each line quoting that input
resolved to an absolute path. -/
theorem fileListLines_eq_map (inputs : List String) :
    FfmpegTools.fileListLines inputs
      = inputs.map fun p => "file \x27" ++ resolve p ++ "\x27" := by
  unfold FfmpegTools.fileListLines
  simpa using foldl_snoc_eq_append_map
    (fun p => "file \x27" ++ resolve p ++ "\x27") inputs []

/-- The descriptor line loop of merge.py written as a map. -/
theorem ensure_file_list_file_eq_map (inputs : List String) :
    Merge.ensure_file_list_file inputs
      = inputs.map fun p => "file \x27" ++ resolve p ++ "\x27" := by
  unfold Merge.ensure_file_list_file
  simpa using foldl_snoc_eq_append_map
    (fun p => "file \x27" ++ resolve p ++ "\x27") inputs []

/-- C5: for every merge of 2 or more inputs, the list descriptor written
into the workspace holds exactly one line per input, in input order, each
line naming that input resolved to an absolute path: the first event of
ffmpeg_tools merge_videos writes exactly those lines, and merge.py
produces the same lines through its file-list helper. -/
theorem merge_descriptor_lines (env : Env) (pid : Nat) (fs : Finset String)
    (inputs : List String) (out : String) (crf : Int)
    (_h : 2 ≤ inputs.length) :
    (FfmpegTools.merge_videos env pid fs inputs out crf).2.1.head?
      = some (Event.writeFile (FfmpegTools.concat_list_file out pid)
          (inputs.map fun p => "file \x27" ++ resolve p ++ "\x27")) ∧
    Merge.ensure_file_list_file inputs
      = inputs.map fun p => "file \x27" ++ resolve p ++ "\x27" := by
  constructor
  · simp only [FfmpegTools.merge_videos]
    split <;> rename_i tr x heq <;> simp [fileListLines_eq_map]
  · exact ensure_file_list_file_eq_map inputs

/-- Witness for C5 on the two inputs a.mp4 and clips/b.mp4. -/
theorem merge_descriptor_lines_witness :
    (FfmpegTools.merge_videos env0 1 ∅ ["a.mp4", "clips/b.mp4"]
        "out.mp4" 23).2.1.head?
      = some (Event.writeFile (FfmpegTools.concat_list_file "out.mp4" 1)
          (["a.mp4", "clips/b.mp4"].map
            fun p => "file \x27" ++ resolve p ++ "\x27")) ∧
    Merge.ensure_file_list_file ["a.mp4", "clips/b.mp4"]
      = ["a.mp4", "clips/b.mp4"].map
          fun p => "file \x27" ++ resolve p ++ "\x27" :=
  merge_descriptor_lines env0 1 ∅ ["a.mp4", "clips/b.mp4"] "out.mp4" 23
    (by decide)

/-- C6: after a merge job completes the transient list descriptor is
absent from the filesystem, on success and on failure alike: the
environment is arbitrary, so both the succeeding and the failing
encoding command are covered.  For ffmpeg_tools merge_videos the finally
block removes it unconditionally; for merge.py merge_videos the same
holds on every run that passes validation (at least two inputs, all
present). -/
theorem merge_descriptor_cleanup (env : Env) (pid nowms : Nat)
    (fs : Finset String) (inputs : List String) (out : String) (crf : Int) :
    FfmpegTools.concat_list_file out pid
      ∉ (FfmpegTools.merge_videos env pid fs inputs out crf).1 ∧
    (2 ≤ inputs.length → (∀ p ∈ inputs, p ∈ fs) →
      Merge.files_list_file nowms
        ∉ (Merge.merge_videos env nowms fs inputs out crf).1) := by
  constructor
  · simp only [FfmpegTools.merge_videos]
    split <;> rename_i tr x heq <;> simp
  · intro h2 hex
    simp only [Merge.merge_videos]
    have hguard : ¬ (inputs = [] ∨ inputs.length < 2) := by
      rintro (h | h)
      · rw [h] at h2; simp at h2
      · omega
    rw [if_neg hguard]
    have hfind : inputs.find? (fun p => !(decide (p ∈ fs))) = none := by
      rw [List.find?_eq_none]
      intro p hp
      simp [hex p hp]
    rw [hfind]
    split
    · rename_i p heq
      exact absurd heq (by simp)
    · split <;> simp

/-- Witness for C6 with both inputs present in the filesystem. -/
theorem merge_descriptor_cleanup_witness :
    FfmpegTools.concat_list_file "out.mp4" 4
      ∉ (FfmpegTools.merge_videos env0 4 {"a.mp4", "b.mp4"}
          ["a.mp4", "b.mp4"] "out.mp4" 23).1 ∧
    Merge.files_list_file 5
      ∉ (Merge.merge_videos env0 5 {"a.mp4", "b.mp4"}
          ["a.mp4", "b.mp4"] "out.mp4" 23).1 :=
  ⟨(merge_descriptor_cleanup env0 4 5 {"a.mp4", "b.mp4"}
      ["a.mp4", "b.mp4"] "out.mp4" 23).1,
   (merge_descriptor_cleanup env0 4 5 {"a.mp4", "b.mp4"}
      ["a.mp4", "b.mp4"] "out.mp4" 23).2 (by decide) (by decide)⟩

/-- Selecting any operation from the menu installs a fresh session for
that user, whatever was there before. -/
theorem cb_handler_selects (b : Main.Action) (u : Nat) (st : Main.Store) :
    Main.cb_handler (Main.actionData b) u st u
      = some (Main.initialSession b) := by
  cases b <;>
    simp [Main.cb_handler, Main.actionData, Main.initialSession,
      Function.update_same]

/-- C7: selecting operation A and then operation B before any execution
leaves the session in the fresh state for B: the second selection
overwrites the first unconditionally, and the fresh session carries no
collected files and no stored audio target, so any parameters
accumulated under A are discarded. -/
theorem menu_selection_overwrites (a b : Main.Action) (u : Nat)
    (st : Main.Store) :
    Main.cb_handler (Main.actionData b) u
        (Main.cb_handler (Main.actionData a) u st) u
      = some (Main.initialSession b) ∧
    (Main.initialSession b).collected = [] ∧
    (Main.initialSession b).audioTarget = none :=
  ⟨cb_handler_selects b u (Main.cb_handler (Main.actionData a) u st),
   rfl, rfl⟩

/-- C8: finalizing a merge-collect session holding fewer than 2 files
rejects without touching anything: the result carries the store and the
filesystem unchanged, an empty event trace (no subprocess spawned, no
file written), and the rejection message; in particular the session
still holds its collected list unchanged. -/
theorem done_merge_underfull (env : Env) (pid : Nat) (jd : String)
    (fs : Finset String) (u : Nat) (st : Main.Store) (s : Main.Session)
    (hs : st u = some s) (ha : s.action = Main.Action.merge_collect)
    (hlen : s.collected.length < 2) :
    Main.done_merge env pid jd fs u st
      = (st, fs, [], "Need at least 2 videos to merge.") ∧
    (Main.done_merge env pid jd fs u st).1 u = some s := by
  have h : Main.done_merge env pid jd fs u st
      = (st, fs, [], "Need at least 2 videos to merge.") := by
    unfold Main.done_merge
    rw [hs]
    simp only [ha, if_pos rfl]
    rw [if_pos hlen]
    simp
  refine ⟨h, ?_⟩
  rw [h]
  exact hs

/-- Witness for C8: a one-file merge-collect session is rejected with no
events and the session survives with its single collected file. -/
theorem done_merge_underfull_witness :
    Main.done_merge env0 1 "jd" ∅ 7 st7
      = (st7, ∅, [], "Need at least 2 videos to merge.") ∧
    (Main.done_merge env0 1 "jd" ∅ 7 st7).1 7
      = some { action := Main.Action.merge_collect,
               collected := ["f1.mp4"] } :=
  done_merge_underfull env0 1 "jd" ∅ 7 st7
    { action := Main.Action.merge_collect, collected := ["f1.mp4"] }
    rfl rfl (by decide)

/-- The replace_audio trace always starts by spawning the stream-copy
mux command on the given target video. -/
theorem replace_audio_trace_head (env : Env) (v a o : String) :
    (FfmpegTools.replace_audio env v a o).1.head?
      = some (Event.spawn (FfmpegTools.replace_copy_cmd v a o)) := by
  unfold FfmpegTools.replace_audio
  rcases hm : FfmpegTools.runCmd env
    (FfmpegTools.replace_copy_cmd v a o) 600 with ⟨t1, r1⟩
  have hh : t1.head? = some (Event.spawn (FfmpegTools.replace_copy_cmd v a o)) := by
    have h2 := runCmd_head env (FfmpegTools.replace_copy_cmd v a o) 600
    rw [hm] at h2
    exact h2
  cases r1 with
  | ok x => simpa using hh
  | error e =>
    by_cases he : e.isRuntimeError = true
    · simp [he, head?_append_of_head? hh]
    · simp [he, hh]

/-- C9: in the audio-replace flow, the first execution stores the
downloaded input as the target in the session and spawns nothing; the
second execution runs replace_audio with the stored target as the video
input (the trace is exactly the mux trace, starting with the stream-copy
mux on the stored target) and removes the stored target from the
session. -/
theorem audio_replace_two_step (env : Env) (u : Nat) (st : Main.Store)
    (s : Main.Session) (input jd : String)
    (hs : st u = some s) (ha : s.action = Main.Action.audio_replace) :
    (s.audioTarget = none →
      (Main.send_handler_audio_replace env u st input jd).1 u
        = some { s with audioTarget := some input } ∧
      (Main.send_handler_audio_replace env u st input jd).2.1 = []) ∧
    (∀ t, s.audioTarget = some t →
      (Main.send_handler_audio_replace env u st input jd).2.1
        = (FfmpegTools.replace_audio env t input
            (jd ++ "/replaced_audio.mp4")).1 ∧
      (Main.send_handler_audio_replace env u st input jd).2.1.head?
        = some (Event.spawn (FfmpegTools.replace_copy_cmd t input
            (jd ++ "/replaced_audio.mp4"))) ∧
      (Main.send_handler_audio_replace env u st input jd).1 u
        = some { s with audioTarget := none }) := by
  constructor
  · intro h0
    unfold Main.send_handler_audio_replace
    rw [hs]
    simp only [ha, if_pos rfl]
    rw [h0]
    exact ⟨by simp [Function.update_same], rfl⟩
  · intro t ht
    have hh := replace_audio_trace_head env t input (jd ++ "/replaced_audio.mp4")
    unfold Main.send_handler_audio_replace
    rw [hs]
    simp only [ha, ht, eq_self_iff_true, if_true]
    rcases hm : FfmpegTools.replace_audio env t input
      (jd ++ "/replaced_audio.mp4") with ⟨tr, r⟩
    rw [hm] at hh
    try rw [hm]
    cases r with
    | ok x =>
      exact ⟨by simp, by simpa using hh, by simp [Function.update_same]⟩
    | error e =>
      exact ⟨by simp, by simpa using hh, by simp [Function.update_same]⟩

/-- Witness for C9: first execution on a target-less audio-replace
session stores the input and spawns nothing; second execution on a
session holding target tgt.mp4 runs the mux against tgt.mp4 and clears
the stored target. -/
theorem audio_replace_two_step_witness :
    ((Main.send_handler_audio_replace env0 9 st9 "in.mp4" "jd").1 9
        = some { action := Main.Action.audio_replace,
                 audioTarget := some "in.mp4" } ∧
      (Main.send_handler_audio_replace env0 9 st9 "in.mp4" "jd").2.1 = []) ∧
    ((Main.send_handler_audio_replace env0 10 st10 "a.mp3" "jd").2.1
        = (FfmpegTools.replace_audio env0 "tgt.mp4" "a.mp3"
            ("jd" ++ "/replaced_audio.mp4")).1 ∧
      (Main.send_handler_audio_replace env0 10 st10 "a.mp3" "jd").2.1.head?
        = some (Event.spawn (FfmpegTools.replace_copy_cmd "tgt.mp4" "a.mp3"
            ("jd" ++ "/replaced_audio.mp4"))) ∧
      (Main.send_handler_audio_replace env0 10 st10 "a.mp3" "jd").1 10
        = some { action := Main.Action.audio_replace,
                 audioTarget := none }) :=
  ⟨(audio_replace_two_step env0 9 st9
      { action := Main.Action.audio_replace } "in.mp4" "jd" rfl rfl).1 rfl,
   (audio_replace_two_step env0 10 st10
      { action := Main.Action.audio_replace, audioTarget := some "tgt.mp4" }
      "a.mp3" "jd" rfl rfl).2 "tgt.mp4" rfl⟩

/-- C10: finalizing a merge-collect session holding at least 2 files pops
the session in the finally block whatever the merge outcome: the
environment is arbitrary, covering success and failure of the encoding
command, and afterwards the user has no session, so the collected list is
gone. -/
theorem done_merge_clears_session (env : Env) (pid : Nat) (jd : String)
    (fs : Finset String) (u : Nat) (st : Main.Store) (s : Main.Session)
    (hs : st u = some s) (ha : s.action = Main.Action.merge_collect)
    (hlen : 2 ≤ s.collected.length) :
    (Main.done_merge env pid jd fs u st).1 u = none := by
  unfold Main.done_merge
  rw [hs]
  simp only [ha, if_pos rfl]
  have hge : ¬ s.collected.length < 2 := by omega
  rw [if_neg hge]
  rcases hm : FfmpegTools.merge_videos env pid fs s.collected
    (jd ++ "/merged.mp4") 22 with ⟨fs2, tr, r⟩
  cases r <;> simp [Function.update_same]

/-- Witness for C10: finalizing a two-file merge-collect session under an
environment where the encoding command fails still removes the session. -/
theorem done_merge_clears_session_witness :
    (Main.done_merge envReplFail 1 "jd" ∅ 8 st8).1 8 = none :=
  done_merge_clears_session envReplFail 1 "jd" ∅ 8 st8
    { action := Main.Action.merge_collect,
      collected := ["f1.mp4", "f2.mp4"] } rfl rfl (by decide)
